import Mathlib

/-!
Verification of the BigSwapEnergy Uniswap V2 quote core.

The Go sources are shallowly embedded as follows.

* `math/big` integers that flow through the quote path are modelled as `Nat`:
  every such value in the verified code paths is non-negative (reserves are
  decoded from raw bytes, amounts are rejected unless positive, and the fee
  multipliers are the positive constants 997/995/990 or `1000 - fee` with
  `fee < 1000`).  On non-negative operands Go's `big.Int.Div` (Euclidean
  division, used by `uniswap_math.go`) and `big.Int.QuoRem` (truncated
  division, used by the in-place variant) both coincide with `Nat` division.
* Byte slices (`[]byte`) are modelled as `List Nat` with each entry a byte
  value `< 256`.
* Ethereum addresses (`common.Address`, 20 bytes) are modelled as the
  `List Nat` of their bytes.
* Go strings holding request parameters are modelled as `List Char`.
* Errors produced with `fmt.Errorf("%w: ...", sentinel, ...)` are modelled by
  the sentinel's kind (`ErrKind`): `errors.Is` only sees the `%w` operand, so
  the kind of a wrapped error is the kind of its outermost `%w` sentinel.
* The `sync.Pool`-backed `BigIntPool` is modelled as an explicit state
  (`PoolState`): a heap of big-int objects addressed by `Nat` identifiers, a
  free list, and an allocation counter, together with ghost logs recording
  which identifiers a computation acquired and released.
-/

/-! ### Swap math engine (`internal/shared/utils/uniswap_math.go`)

`CalculateSwapAmount` from the allocating variant of the file: the fee switch
selects the preset multiplier 997/995/990 for fees 3/5/10 and computes
`1000 - fee` otherwise; then
`numerator = amountIn * multiplier`, `denominator = reserveIn * 1000 + numerator`,
`amountOut = numerator * reserveOut / denominator` with integer division. -/
def CalculateSwapAmount (amountIn reserveIn reserveOut : Nat) (feeBasisPoints : Nat) : Nat :=
  let numerator :=
    if feeBasisPoints = 3 then amountIn * 997
    else if feeBasisPoints = 5 then amountIn * 995
    else if feeBasisPoints = 10 then amountIn * 990
    else amountIn * (1000 - feeBasisPoints)
  let tmpCalc := reserveIn * 1000
  let denominator := tmpCalc + numerator
  let tmpCalc2 := numerator * reserveOut
  tmpCalc2 / denominator

/-- Model of `CalculateSwapAmount` from the in-place (zero-allocation) variant of the
file: the switch selects the `feeMultiplier`, then `t1 = amountIn * feeMultiplier`,
`amountOut = reserveIn * 1000`, `t2 = amountOut + t1`,
`amountOut = t1 * reserveOut`, `amountOut = amountOut quo t2`. -/
def CalculateSwapAmountInPlace (amountIn reserveIn reserveOut : Nat) (feeBasisPoints : Nat) : Nat :=
  let feeMultiplier :=
    if feeBasisPoints = 3 then 997
    else if feeBasisPoints = 5 then 995
    else if feeBasisPoints = 10 then 990
    else 1000 - feeBasisPoints
  let t1 := amountIn * feeMultiplier
  let amountOut1 := reserveIn * 1000
  let t2 := amountOut1 + t1
  let amountOut2 := t1 * reserveOut
  amountOut2 / t2

/-- Model of `CalculateUniswapV2SwapAmount`: convenience wrapper fixing the 0.3% fee. -/
def CalculateUniswapV2SwapAmount (amountIn reserveIn reserveOut : Nat) : Nat :=
  CalculateSwapAmount amountIn reserveIn reserveOut 3

/-! ### Fixed-width reserve decoder (`ParseReserves`) -/

/-- Big-endian interpretation of a byte slice, as in `big.Int.SetBytes`. -/
def bytesToNat (b : List Nat) : Nat :=
  b.foldl (fun acc x => acc * 256 + x) 0

/-- The constant `Mask112 = 1 <<< 112 - 1`, the low-112-bit mask from the source. -/
def Mask112 : Nat := (1 <<< 112) - 1

/-- Model of `ParseReserves`: interpret the 32-byte storage word big-endian, take the
low 112 bits as `reserve0` and bits 112–223 as `reserve1`. -/
def ParseReserves (b : List Nat) : Nat × Nat :=
  let v := bytesToNat b
  let reserve0 := v &&& Mask112
  let tmp := v >>> 112
  let reserve1 := tmp &&& Mask112
  (reserve0, reserve1)

/-- Big-endian encoding of `n` into `w` bytes (the inverse used to state the
round-trip law; it keeps the low `8*w` bits of `n`). -/
def natToBytesBE : Nat → Nat → List Nat
  | 0, _ => []
  | w + 1, n => natToBytesBE w (n / 256) ++ [n % 256]

theorem bytesToNat_append (l : List Nat) (x : Nat) :
    bytesToNat (l ++ [x]) = bytesToNat l * 256 + x := by
  simp [bytesToNat, List.foldl_append]

theorem bytesToNat_natToBytesBE (w n : Nat) :
    bytesToNat (natToBytesBE w n) = n % 256 ^ w := by
  induction w generalizing n with
  | zero => simp [natToBytesBE, bytesToNat, Nat.mod_one]
  | succ w ih =>
    rw [natToBytesBE, bytesToNat_append, ih]
    have h : (256 : Nat) ^ (w + 1) = 256 * 256 ^ w := by ring
    rw [h, Nat.mod_mul]
    ring

theorem mask112_eq : Mask112 = 2 ^ 112 - 1 := by
  norm_num [Mask112, Nat.one_shiftLeft]

/-- Evaluation form of the decoder: masking is reduction mod `2 ^ 112` and the
shift is division by `2 ^ 112`. -/
theorem ParseReserves_eq (b : List Nat) :
    ParseReserves b = (bytesToNat b % 2 ^ 112, bytesToNat b / 2 ^ 112 % 2 ^ 112) := by
  simp only [ParseReserves, mask112_eq, Nat.and_pow_two_sub_one_eq_mod,
    Nat.shiftRight_eq_div_pow]

/-- Shared closed form for the allocating variant: for any fee below 1000 the
switch computes `amountIn * (1000 - fee)` (the presets 997/995/990 being
`1000 - 3`, `1000 - 5`, `1000 - 10`). -/
theorem CalculateSwapAmount_eq (amountIn reserveIn reserveOut feeBasisPoints : Nat)
    (hfee : feeBasisPoints < 1000) :
    CalculateSwapAmount amountIn reserveIn reserveOut feeBasisPoints =
      amountIn * (1000 - feeBasisPoints) * reserveOut /
        (reserveIn * 1000 + amountIn * (1000 - feeBasisPoints)) := by
  simp only [CalculateSwapAmount]
  split_ifs with h3 h5 h10 <;> first
    | (subst h3; norm_num)
    | (subst h5; norm_num)
    | (subst h10; norm_num)
    | rfl

/-- Shared closed form for the in-place variant; it agrees with the allocating
variant on every input with fee below 1000. -/
theorem CalculateSwapAmountInPlace_eq (amountIn reserveIn reserveOut feeBasisPoints : Nat)
    (hfee : feeBasisPoints < 1000) :
    CalculateSwapAmountInPlace amountIn reserveIn reserveOut feeBasisPoints =
      amountIn * (1000 - feeBasisPoints) * reserveOut /
        (reserveIn * 1000 + amountIn * (1000 - feeBasisPoints)) := by
  simp only [CalculateSwapAmountInPlace]
  split_ifs with h3 h5 h10 <;> first
    | (subst h3; norm_num)
    | (subst h5; norm_num)
    | (subst h10; norm_num)
    | rfl

/-- C1: for positive `amountIn`, `reserveIn`, `reserveOut` and any fee below
1000 (the presets 3/5/10 included), both variants of `CalculateSwapAmount`
return exactly
`⌊amountIn * (1000 - fee) * reserveOut / (reserveIn * 1000 + amountIn * (1000 - fee))⌋`
in exact unbounded integer arithmetic with truncating division, and the
divisor is never zero. -/
theorem calculateSwapAmount_closed_form
    (amountIn reserveIn reserveOut feeBasisPoints : Nat)
    (ha : 0 < amountIn) (hin : 0 < reserveIn) (hout : 0 < reserveOut)
    (hfee : feeBasisPoints < 1000) :
    CalculateSwapAmount amountIn reserveIn reserveOut feeBasisPoints =
      amountIn * (1000 - feeBasisPoints) * reserveOut /
        (reserveIn * 1000 + amountIn * (1000 - feeBasisPoints)) ∧
    CalculateSwapAmountInPlace amountIn reserveIn reserveOut feeBasisPoints =
      amountIn * (1000 - feeBasisPoints) * reserveOut /
        (reserveIn * 1000 + amountIn * (1000 - feeBasisPoints)) ∧
    reserveIn * 1000 + amountIn * (1000 - feeBasisPoints) ≠ 0 := by
  refine ⟨CalculateSwapAmount_eq _ _ _ _ hfee, CalculateSwapAmountInPlace_eq _ _ _ _ hfee, ?_⟩
  have : 0 < reserveIn * 1000 := by positivity
  omega

/-- Witness for C1 at the reference fixture input. -/
theorem calculateSwapAmount_closed_form_witness :
    CalculateSwapAmount 1000 1000000 1000000 3 =
      1000 * (1000 - 3) * 1000000 / (1000000 * 1000 + 1000 * (1000 - 3)) ∧
    CalculateSwapAmountInPlace 1000 1000000 1000000 3 =
      1000 * (1000 - 3) * 1000000 / (1000000 * 1000 + 1000 * (1000 - 3)) ∧
    1000000 * 1000 + 1000 * (1000 - 3) ≠ 0 :=
  calculateSwapAmount_closed_form 1000 1000000 1000000 3
    (by decide) (by decide) (by decide) (by decide)

/-- Division comparison by cross multiplication:
`u / v ≤ u' / v'` whenever `u * v' ≤ u' * v` (divisors positive). -/
theorem nat_div_le_div_cross (u v u' v' : Nat) (hv : 0 < v) (hv' : 0 < v')
    (h : u * v' ≤ u' * v) : u / v ≤ u' / v' := by
  rw [Nat.le_div_iff_mul_le hv']
  calc u / v * v' ≤ u * v' / v := by
        rw [Nat.le_div_iff_mul_le hv]
        calc u / v * v' * v = u / v * v * v' := by ring
          _ ≤ u * v' := Nat.mul_le_mul_right _ (Nat.div_mul_le_self u v)
    _ ≤ u' * v / v := Nat.div_le_div_right h
    _ = u' := Nat.mul_div_cancel u' hv

/-- C5 counterexample: the output is not strictly increasing in `amountIn`
(inputs 1 and 2 against reserves 1000000/1 both give 0), and with fee 3 the
output 998997 at `amountIn = 1000`, `reserveIn = 1`, `reserveOut = 1000000`
exceeds the input amount. -/
theorem calculateSwapAmount_strictness_counterexample :
    CalculateSwapAmount 1 1000000 1 3 = 0 ∧
    CalculateSwapAmount 2 1000000 1 3 = 0 ∧
    CalculateSwapAmount 1000 1 1000000 3 = 998997 ∧
    ¬ (∀ a a' : Nat, 0 < a → a < a' →
        CalculateSwapAmount a 1000000 1 3 < CalculateSwapAmount a' 1000000 1 3) ∧
    ¬ (∀ a rIn rOut fee : Nat, 0 < a → 0 < rIn → 0 < rOut → 0 < fee → fee < 1000 →
        CalculateSwapAmount a rIn rOut fee < a) := by
  have h1 : CalculateSwapAmount 1 1000000 1 3 = 0 := by decide
  have h2 : CalculateSwapAmount 2 1000000 1 3 = 0 := by decide
  have h3 : CalculateSwapAmount 1000 1 1000000 3 = 998997 := by decide
  refine ⟨h1, h2, h3, ?_, ?_⟩
  · intro h
    have := h 1 2 (by decide) (by decide)
    rw [h1, h2] at this
    exact absurd this (by decide)
  · intro h
    have := h 1000 1 1000000 3 (by decide) (by decide) (by decide) (by decide) (by decide)
    rw [h3] at this
    exact absurd this (by decide)

/-- C5 (amended): for fixed positive reserves and fee below 1000,
`CalculateSwapAmount` is monotone (non-strictly increasing) in `amountIn`;
and, additionally assuming `reserveOut ≤ reserveIn`, for every positive
`amountIn` with positive fee the output is strictly less than `amountIn`. -/
theorem calculateSwapAmount_monotone_and_fee_loss
    (reserveIn reserveOut feeBasisPoints a b : Nat)
    (hin : 0 < reserveIn) (hout : 0 < reserveOut) (hfee : feeBasisPoints < 1000)
    (hab : a ≤ b) :
    CalculateSwapAmount a reserveIn reserveOut feeBasisPoints ≤
      CalculateSwapAmount b reserveIn reserveOut feeBasisPoints ∧
    (0 < a → 0 < feeBasisPoints → reserveOut ≤ reserveIn →
      CalculateSwapAmount a reserveIn reserveOut feeBasisPoints < a) := by
  set m := 1000 - feeBasisPoints with hm
  have hmpos : 0 < m := by omega
  have hN : 0 < reserveIn * 1000 := by positivity
  constructor
  · rw [CalculateSwapAmount_eq _ _ _ _ hfee, CalculateSwapAmount_eq _ _ _ _ hfee]
    apply nat_div_le_div_cross
    · omega
    · omega
    · have hkey : a * m * reserveOut * (reserveIn * 1000) ≤
          b * m * reserveOut * (reserveIn * 1000) := by
        have : a * m * reserveOut ≤ b * m * reserveOut :=
          Nat.mul_le_mul_right _ (Nat.mul_le_mul_right _ hab)
        exact Nat.mul_le_mul_right _ this
      calc a * m * reserveOut * (reserveIn * 1000 + b * m)
          = a * m * reserveOut * (reserveIn * 1000) + a * b * (m * m) * reserveOut := by ring
        _ ≤ b * m * reserveOut * (reserveIn * 1000) + a * b * (m * m) * reserveOut :=
            Nat.add_le_add_right hkey _
        _ = b * m * reserveOut * (reserveIn * 1000 + a * m) := by ring
  · intro hapos hfeepos houtle
    rw [CalculateSwapAmount_eq _ _ _ _ hfee]
    have hden : 0 < reserveIn * 1000 + a * m := by omega
    rw [Nat.div_lt_iff_lt_mul hden]
    have hm999 : m ≤ 999 := by omega
    have hnum : m * reserveOut < reserveIn * 1000 := by
      calc m * reserveOut ≤ 999 * reserveIn :=
            Nat.mul_le_mul hm999 houtle
        _ < reserveIn * 1000 := by omega
    calc a * m * reserveOut = a * (m * reserveOut) := by ring
      _ < a * (reserveIn * 1000) := by
            exact (Nat.mul_lt_mul_left hapos).mpr hnum
      _ ≤ a * (reserveIn * 1000 + a * m) := Nat.mul_le_mul_left _ (Nat.le_add_right _ _)

/-- Witness for the amended C5 at concrete inputs. -/
theorem calculateSwapAmount_monotone_and_fee_loss_witness :
    CalculateSwapAmount 1000 1000000 1000000 3 ≤
      CalculateSwapAmount 2000 1000000 1000000 3 ∧
    (0 < 1000 → 0 < 3 → (1000000 : Nat) ≤ 1000000 →
      CalculateSwapAmount 1000 1000000 1000000 3 < 1000) :=
  calculateSwapAmount_monotone_and_fee_loss 1000000 1000000 3 1000 2000
    (by decide) (by decide) (by decide) (by decide)

/-- C7: packing `reserve0` into bits 0–111, `reserve1` into bits 112–223 and an
arbitrary 32-bit value into the bits above 223 of a 32-byte big-endian word and
then decoding with `ParseReserves` reproduces the pair exactly; the high bits
are discarded. -/
theorem parseReserves_roundTrip (r0 r1 hi : Nat)
    (h0 : r0 < 2 ^ 112) (h1 : r1 < 2 ^ 112) (hhi : hi < 2 ^ 32) :
    ParseReserves (natToBytesBE 32 (r0 + 2 ^ 112 * r1 + 2 ^ 224 * hi)) = (r0, r1) := by
  rw [ParseReserves_eq, bytesToNat_natToBytesBE]
  have h256 : (256 : Nat) ^ 32 = 2 ^ 256 := by norm_num
  rw [h256]
  have hlt : r0 + 2 ^ 112 * r1 + 2 ^ 224 * hi < 2 ^ 256 := by
    have e : (2 : Nat) ^ 256 = 2 ^ 112 + 2 ^ 112 * (2 ^ 112 - 1) + 2 ^ 224 * (2 ^ 32 - 1) := by
      norm_num
    omega
  rw [Nat.mod_eq_of_lt hlt]
  have hsplit : r0 + 2 ^ 112 * r1 + 2 ^ 224 * hi = r0 + 2 ^ 112 * (r1 + 2 ^ 112 * hi) := by
    have e : (2 : Nat) ^ 224 = 2 ^ 112 * 2 ^ 112 := by norm_num
    rw [e]; ring
  rw [hsplit, Prod.mk.injEq]
  constructor
  · rw [Nat.add_mul_mod_self_left, Nat.mod_eq_of_lt h0]
  · rw [Nat.add_mul_div_left _ _ (by positivity : 0 < (2:Nat) ^ 112),
      Nat.div_eq_of_lt h0, Nat.zero_add, Nat.add_mul_mod_self_left,
      Nat.mod_eq_of_lt h1]

/-- Witness for C7 at concrete reserves. -/
theorem parseReserves_roundTrip_witness :
    ParseReserves (natToBytesBE 32 (123456789 + 2 ^ 112 * 987654321 + 2 ^ 224 * 1700000000)) =
      (123456789, 987654321) :=
  parseReserves_roundTrip 123456789 987654321 1700000000
    (by norm_num) (by norm_num) (by norm_num)

/-- C8: the decoder is total (a plain function on byte lists — it has no failure
outcome), the all-zero 32-byte word decodes to `(0, 0)`, and both components of
every decoded pair fit in 112 bits. -/
theorem parseReserves_total_bounds :
    ParseReserves (List.replicate 32 0) = (0, 0) ∧
    ∀ b : List Nat, (ParseReserves b).1 < 2 ^ 112 ∧ (ParseReserves b).2 < 2 ^ 112 := by
  constructor
  · have hz : bytesToNat (List.replicate 32 0) = 0 := by decide
    rw [ParseReserves_eq, hz]
    simp
  · intro b
    rw [ParseReserves_eq]
    exact ⟨Nat.mod_lt _ (by positivity), Nat.mod_lt _ (by positivity)⟩

/-! ### Addresses and hex request parameters

`common.Address` is 20 bytes; request parameters arrive as strings and are
validated with `common.IsHexAddress` and converted with `common.HexToAddress`
(`go-ethereum` `common/types.go` / `common/bytes.go`). -/

/-- A 20-byte Ethereum address, as its list of byte values. -/
def zeroAddress : List Nat := List.replicate 20 0

/-- Model of go-ethereum's leading-`0x` test: the string starts with `0x` or `0X`. -/
def startsWith0x : List Char → Bool
  | '0' :: c :: _ => c = 'x' || c = 'X'
  | _ => false

/-- Model of `isHexCharacter`: `0-9`, `a-f` or `A-F`. -/
def isHexCharacter (c : Char) : Bool :=
  (48 ≤ c.toNat && c.toNat ≤ 57) || (97 ≤ c.toNat && c.toNat ≤ 102) ||
    (65 ≤ c.toNat && c.toNat ≤ 70)

/-- Model of `isHex`: even length and all characters hex. -/
def isHexStr (s : List Char) : Bool :=
  s.length % 2 = 0 && s.all isHexCharacter

/-- Model of `common.IsHexAddress`: after stripping an optional leading `0x` the string
is 40 hex characters. -/
def isHexAddress (s : List Char) : Bool :=
  let s' := if startsWith0x s then s.drop 2 else s
  s'.length = 40 && isHexStr s'

/-- Value of one hex digit (`encoding/hex`). -/
def hexDigitVal (c : Char) : Option Nat :=
  if 48 ≤ c.toNat ∧ c.toNat ≤ 57 then some (c.toNat - 48)
  else if 97 ≤ c.toNat ∧ c.toNat ≤ 102 then some (c.toNat - 87)
  else if 65 ≤ c.toNat ∧ c.toNat ≤ 70 then some (c.toNat - 55)
  else none

/-- Model of `hex.DecodeString` as used by `common.Hex2Bytes`: decode pairs of hex
digits into bytes, stopping at the first invalid pair (the error is dropped
and the successfully decoded leading part kept). -/
def hex2Bytes : List Char → List Nat
  | c1 :: c2 :: rest =>
    match hexDigitVal c1, hexDigitVal c2 with
    | some h, some l => (16 * h + l) :: hex2Bytes rest
    | _, _ => []
  | _ => []

/-- Model of `common.FromHex`: strip an optional leading `0x`, left-pad odd-length input
with one `0`, then decode. -/
def fromHex (s : List Char) : List Nat :=
  let s1 := if startsWith0x s then s.drop 2 else s
  let s2 := if s1.length % 2 = 1 then '0' :: s1 else s1
  hex2Bytes s2

/-- Model of `common.BytesToAddress`: keep the last 20 bytes, left-padding with zeros
when shorter. -/
def bytesToAddress (b : List Nat) : List Nat :=
  if b.length ≤ 20 then List.replicate (20 - b.length) 0 ++ b
  else b.drop (b.length - 20)

/-- Model of `common.HexToAddress`. -/
def hexToAddress (s : List Char) : List Nat :=
  bytesToAddress (fromHex s)

/-! ### Error kinds and the chain-access collaborator -/

/-- Error kinds: the `%w` sentinels of `internal/shared/errors`, the
`uniswap_v2` package sentinels, and the `ethereum` transport sentinels. -/
inductive ErrKind where
  | validation
  | invalidInput
  | notFound
  | businessRule
  | externalService
  | timeout
  | internalFault
  | poolNotFound
  | insufficientLiquidity
  | tokenPairMismatch
  | invalidPoolAddress
  | connectionFailed
  | rpcTimeout
  | storageReadFailed
  deriving DecidableEq, Repr

/-- External reads performed against the chain collaborator. -/
inductive ChainEvent where
  | blockNumberRead
  | storageRead (pool : List Nat) (slot : Nat) (blockNum : Nat)
  deriving DecidableEq, Repr

/-- The excluded `ethereum` collaborator, specified at its interface: the
latest block number and the 32-byte storage word per (pool, slot, height). -/
structure EthOracle where
  latestBlockNumber : Except ErrKind Nat
  storageAt : List Nat → Nat → Nat → Except ErrKind (List Nat)

/-! ### Uniswap V2 client (`internal/infrastructure/uniswap_v2/uniswap_v2.go`) -/

/-- Model of `ReadStorageSlot`: the storage key is the 32-byte word whose last byte is
`byte(slot)`; the read is recorded as a chain event. -/
def ReadStorageSlot (o : EthOracle) (pool : List Nat) (blockNum : Nat) (slot : Nat) :
    Except ErrKind (List Nat) × List ChainEvent :=
  (o.storageAt pool (slot % 256) blockNum, [ChainEvent.storageRead pool (slot % 256) blockNum])

/-- Model of `LoadTokens`: read slots 6 and 7, convert to addresses, and fail with the
pool-not-found sentinel when either address is the zero address.  A failed
read keeps its kind (the wrap uses `%w` on the inner error). -/
def LoadTokens (o : EthOracle) (pool : List Nat) (blockNum : Nat) :
    Except ErrKind (List Nat × List Nat) × List ChainEvent :=
  match ReadStorageSlot o pool blockNum 6 with
  | (Except.error e, ev1) => (Except.error e, ev1)
  | (Except.ok token0Data, ev1) =>
    let token0 := bytesToAddress token0Data
    match ReadStorageSlot o pool blockNum 7 with
    | (Except.error e, ev2) => (Except.error e, ev1 ++ ev2)
    | (Except.ok token1Data, ev2) =>
      let token1 := bytesToAddress token1Data
      if token0 = zeroAddress ∨ token1 = zeroAddress then
        (Except.error ErrKind.poolNotFound, ev1 ++ ev2)
      else
        (Except.ok (token0, token1), ev1 ++ ev2)

/-- Model of `LoadReserves`: read slot 8, decode with `ParseReserves`, and fail with the
insufficient-liquidity sentinel when either decoded reserve is zero. -/
def LoadReserves (o : EthOracle) (pool : List Nat) (blockNum : Nat) :
    Except ErrKind (Nat × Nat) × List ChainEvent :=
  match ReadStorageSlot o pool blockNum 8 with
  | (Except.error e, ev) => (Except.error e, ev)
  | (Except.ok reserveData, ev) =>
    let r := ParseReserves reserveData
    if r.1 = 0 ∨ r.2 = 0 then
      (Except.error ErrKind.insufficientLiquidity, ev)
    else
      (Except.ok r, ev)

/-- Model of `DetermineReserveOrder`: return `(reserve0, reserve1)` when
`src = token0 ∧ dst = token1`, `(reserve1, reserve0)` when
`src = token1 ∧ dst = token0`, and the token-pair-mismatch sentinel otherwise.
Pure comparison; no chain access, no arithmetic. -/
def DetermineReserveOrder (src dst token0 token1 : List Nat) (reserve0 reserve1 : Nat) :
    Except ErrKind (Nat × Nat) :=
  if src = token0 ∧ dst = token1 then Except.ok (reserve0, reserve1)
  else if src = token1 ∧ dst = token0 then Except.ok (reserve1, reserve0)
  else Except.error ErrKind.tokenPairMismatch

/-! ### Quote orchestrator (`internal/usecases/estimate.go`)

`EstimateSwapAmount` with its exact validation order and error wrapping.  The
second component is the list of external chain reads the call performed. -/
def EstimateSwapAmount (o : EthOracle) (poolAddress srcToken dstToken : List Char)
    (srcAmount : Option Int) : Except ErrKind Nat × List ChainEvent :=
  if poolAddress = [] then (Except.error ErrKind.validation, [])
  else if srcToken = [] then (Except.error ErrKind.validation, [])
  else if dstToken = [] then (Except.error ErrKind.validation, [])
  else
    match srcAmount with
    | none => (Except.error ErrKind.validation, [])
    | some amt =>
      if amt ≤ 0 then (Except.error ErrKind.validation, [])
      else if isHexAddress poolAddress = false then (Except.error ErrKind.validation, [])
      else if isHexAddress srcToken = false then (Except.error ErrKind.validation, [])
      else if isHexAddress dstToken = false then (Except.error ErrKind.validation, [])
      else
        let pool := hexToAddress poolAddress
        let src := hexToAddress srcToken
        let dst := hexToAddress dstToken
        if src = dst then (Except.error ErrKind.businessRule, [])
        else
          match o.latestBlockNumber with
          | Except.error _ => (Except.error ErrKind.externalService, [ChainEvent.blockNumberRead])
          | Except.ok blockNumber =>
            match LoadTokens o pool blockNumber with
            | (Except.error _, ev1) =>
              (Except.error ErrKind.notFound, ChainEvent.blockNumberRead :: ev1)
            | (Except.ok (token0, token1), ev1) =>
              match LoadReserves o pool blockNumber with
              | (Except.error _, ev2) =>
                (Except.error ErrKind.externalService, ChainEvent.blockNumberRead :: (ev1 ++ ev2))
              | (Except.ok (reserve0, reserve1), ev2) =>
                match DetermineReserveOrder src dst token0 token1 reserve0 reserve1 with
                | Except.error e =>
                  (Except.error e, ChainEvent.blockNumberRead :: (ev1 ++ ev2))
                | Except.ok (reserveIn, reserveOut) =>
                  if reserveIn = 0 ∨ reserveOut = 0 then
                    (Except.error ErrKind.businessRule,
                      ChainEvent.blockNumberRead :: (ev1 ++ ev2))
                  else
                    (Except.ok (CalculateUniswapV2SwapAmount amt.toNat reserveIn reserveOut),
                      ChainEvent.blockNumberRead :: (ev1 ++ ev2))

/-- C6: for a pool with two distinct tokens, `DetermineReserveOrder` returns
`(reserve0, reserve1)` when `src = token0 ∧ dst = token1`, `(reserve1, reserve0)`
when `src = token1 ∧ dst = token0`, and it fails with the token-pair-mismatch
error exactly when neither ordering matches; the returned reserves are passed
through verbatim (no arithmetic). -/
theorem determineReserveOrder_spec (src dst token0 token1 : List Nat)
    (reserve0 reserve1 : Nat) (hne : token0 ≠ token1) :
    (src = token0 ∧ dst = token1 →
      DetermineReserveOrder src dst token0 token1 reserve0 reserve1 =
        Except.ok (reserve0, reserve1)) ∧
    (src = token1 ∧ dst = token0 →
      DetermineReserveOrder src dst token0 token1 reserve0 reserve1 =
        Except.ok (reserve1, reserve0)) ∧
    (DetermineReserveOrder src dst token0 token1 reserve0 reserve1 =
        Except.error ErrKind.tokenPairMismatch ↔
      ¬ (src = token0 ∧ dst = token1) ∧ ¬ (src = token1 ∧ dst = token0)) := by
  unfold DetermineReserveOrder
  refine ⟨?_, ?_, ?_⟩
  · intro h
    rw [if_pos h]
  · intro h
    have hnot : ¬ (src = token0 ∧ dst = token1) := by
      rintro ⟨h0, h1⟩
      exact hne (by rw [← h0, h.1])
    rw [if_neg hnot, if_pos h]
  · constructor
    · intro h
      constructor
      · intro hc
        rw [if_pos hc] at h
        exact Except.noConfusion h
      · intro hc
        by_cases h1 : src = token0 ∧ dst = token1
        · rw [if_pos h1] at h
          exact Except.noConfusion h
        · rw [if_neg h1, if_pos hc] at h
          exact Except.noConfusion h
    · rintro ⟨h1, h2⟩
      rw [if_neg h1, if_neg h2]

/-- Witness for C6 at concrete tokens and reserves. -/
theorem determineReserveOrder_spec_witness :
    (List.replicate 20 170 = List.replicate 20 170 ∧
        List.replicate 20 187 = List.replicate 20 187 →
      DetermineReserveOrder (List.replicate 20 170) (List.replicate 20 187)
          (List.replicate 20 170) (List.replicate 20 187) 5 7 =
        Except.ok (5, 7)) ∧
    (List.replicate 20 170 = List.replicate 20 187 ∧
        List.replicate 20 187 = List.replicate 20 170 →
      DetermineReserveOrder (List.replicate 20 170) (List.replicate 20 187)
          (List.replicate 20 170) (List.replicate 20 187) 5 7 =
        Except.ok (7, 5)) ∧
    (DetermineReserveOrder (List.replicate 20 170) (List.replicate 20 187)
          (List.replicate 20 170) (List.replicate 20 187) 5 7 =
        Except.error ErrKind.tokenPairMismatch ↔
      ¬ (List.replicate 20 170 = List.replicate 20 170 ∧
          List.replicate 20 187 = List.replicate 20 187) ∧
      ¬ (List.replicate 20 170 = List.replicate 20 187 ∧
          List.replicate 20 187 = List.replicate 20 170)) :=
  determineReserveOrder_spec (List.replicate 20 170) (List.replicate 20 187)
    (List.replicate 20 170) (List.replicate 20 187) 5 7 (by decide)

/-! ### Concrete end-to-end fixtures -/

/-- Token A: the address `0xaaaa…aa`. -/
def tokenA : List Nat := List.replicate 20 170

/-- Token B: the address `0xbbbb…bb`. -/
def tokenB : List Nat := List.replicate 20 187

/-- The request string for the pool address `0xcccc…cc`. -/
def poolAddrChars : List Char := '0' :: 'x' :: List.replicate 40 'c'

/-- The request string for token A. -/
def tokenAChars : List Char := '0' :: 'x' :: List.replicate 40 'a'

/-- The request string for token B. -/
def tokenBChars : List Char := '0' :: 'x' :: List.replicate 40 'b'

/-- A 32-byte storage word holding an address in its low 20 bytes. -/
def addressWord (a : List Nat) : List Nat := List.replicate 12 0 ++ a

/-- The packed reserve word: `reserve0` in bits 0–111, `reserve1` in bits
112–223, the timestamp above. -/
def reservesWord (r0 r1 ts : Nat) : List Nat :=
  natToBytesBE 32 (r0 + 2 ^ 112 * r1 + 2 ^ 224 * ts)

/-- A chain with the symmetric demo pool: `token0 = A`, `token1 = B`,
`reserve0 = reserve1 = 1000000`. -/
def demoOracle : EthOracle where
  latestBlockNumber := Except.ok 21000000
  storageAt := fun _ slot _ =>
    if slot = 6 then Except.ok (addressWord tokenA)
    else if slot = 7 then Except.ok (addressWord tokenB)
    else if slot = 8 then Except.ok (reservesWord 1000000 1000000 1700000000)
    else Except.ok (List.replicate 32 0)

/-- The same pool but with an all-zero reserve storage word (both decoded
reserves zero). -/
def emptyReservesOracle : EthOracle where
  latestBlockNumber := Except.ok 21000000
  storageAt := fun _ slot _ =>
    if slot = 6 then Except.ok (addressWord tokenA)
    else if slot = 7 then Except.ok (addressWord tokenB)
    else Except.ok (List.replicate 32 0)

/-- C2: the reference fixture — `CalculateSwapAmount(1000, 1000000, 1000000,
fee 3) = 996`, and end-to-end against the symmetric demo pool the estimate
returns 996 in both swap directions. -/
theorem estimate_symmetric_pool_996 :
    CalculateSwapAmount 1000 1000000 1000000 3 = 996 ∧
    (EstimateSwapAmount demoOracle poolAddrChars tokenAChars tokenBChars (some 1000)).1 =
      Except.ok 996 ∧
    (EstimateSwapAmount demoOracle poolAddrChars tokenBChars tokenAChars (some 1000)).1 =
      Except.ok 996 := by
  exact ⟨by decide, rfl, rfl⟩

/-- C3: with both decoded reserves zero, `LoadReserves` correctly fails with
the insufficient-liquidity sentinel, but `EstimateSwapAmount` rewraps that
failure (the inner error is formatted with `%v`, not `%w`) under the
external-service sentinel, so the estimate surfaces the ExternalServiceError
kind instead of the InsufficientLiquidity kind. -/
theorem estimate_zero_reserves_wrapped_as_externalService :
    (LoadReserves emptyReservesOracle (hexToAddress poolAddrChars) 21000000).1 =
      Except.error ErrKind.insufficientLiquidity ∧
    (EstimateSwapAmount emptyReservesOracle poolAddrChars tokenAChars tokenBChars
        (some 1000)).1 =
      Except.error ErrKind.externalService ∧
    ErrKind.externalService ≠ ErrKind.insufficientLiquidity :=
  ⟨rfl, rfl, by decide⟩

/-- C4 counterexample: a request whose source and destination tokens coincide
fails before any external read (the event trace is empty), but with the
business-rule kind, not the ValidationError kind the claim states. -/
theorem estimate_srcEqDst_not_validation :
    EstimateSwapAmount demoOracle poolAddrChars tokenAChars tokenAChars (some 1000) =
      (Except.error ErrKind.businessRule, []) ∧
    ErrKind.businessRule ≠ ErrKind.validation :=
  ⟨rfl, by decide⟩

/-- C4 (amended): a missing/zero/negative amount or a malformed address makes
the estimate fail with the ValidationError kind, and a well-formed request
whose source and destination addresses coincide makes it fail with the
business-rule kind; in both cases no external chain read is performed (the
event trace is empty). -/
theorem estimate_rejects_before_chain_reads (o : EthOracle)
    (poolAddress srcToken dstToken : List Char) (srcAmount : Option Int) :
    ((srcAmount = none ∨ (∃ v, srcAmount = some v ∧ v ≤ 0) ∨
        isHexAddress poolAddress = false ∨ isHexAddress srcToken = false ∨
        isHexAddress dstToken = false) →
      EstimateSwapAmount o poolAddress srcToken dstToken srcAmount =
        (Except.error ErrKind.validation, [])) ∧
    (∀ v : Int, srcAmount = some v → 0 < v →
      isHexAddress poolAddress = true → isHexAddress srcToken = true →
      isHexAddress dstToken = true →
      hexToAddress srcToken = hexToAddress dstToken →
      EstimateSwapAmount o poolAddress srcToken dstToken srcAmount =
        (Except.error ErrKind.businessRule, [])) := by
  constructor
  · intro h
    rcases srcAmount with _ | v
    · simp only [EstimateSwapAmount]
      split_ifs <;> rfl
    · simp only [EstimateSwapAmount]
      split_ifs with h1 h2 h3 h4 h5 h6 h7 h8 <;> try rfl
      all_goals
        exfalso
        rcases h with h | ⟨v', hv', hle⟩ | h | h | h
        · exact Option.noConfusion h
        · injection hv' with hv'
          omega
        · exact absurd h (by simp [h5])
        · exact absurd h (by simp [h6])
        · exact absurd h (by simp [h7])
  · intro v hv hvpos hp hs hd heq
    subst hv
    have hpne : poolAddress ≠ [] := by
      intro he
      rw [he] at hp
      exact absurd hp (by decide)
    have hsne : srcToken ≠ [] := by
      intro he
      rw [he] at hs
      exact absurd hs (by decide)
    have hdne : dstToken ≠ [] := by
      intro he
      rw [he] at hd
      exact absurd hd (by decide)
    have hnle : ¬ (v ≤ 0) := by omega
    simp only [EstimateSwapAmount, if_neg hpne, if_neg hsne, if_neg hdne, hp, hs, hd,
      if_neg hnle, heq, if_pos]
    simp

/-- Witness for the amended C4: a malformed source address is rejected with
ValidationError, and equal source/destination addresses are rejected with the
business-rule kind, both with an empty event trace. -/
theorem estimate_rejects_before_chain_reads_witness :
    EstimateSwapAmount demoOracle poolAddrChars (['z'] : List Char) tokenBChars (some 5) =
      (Except.error ErrKind.validation, []) ∧
    EstimateSwapAmount demoOracle poolAddrChars tokenBChars tokenBChars (some 5) =
      (Except.error ErrKind.businessRule, []) :=
  ⟨(estimate_rejects_before_chain_reads demoOracle poolAddrChars (['z'] : List Char)
      tokenBChars (some 5)).1 (Or.inr (Or.inr (Or.inr (Or.inl (by decide))))),
   (estimate_rejects_before_chain_reads demoOracle poolAddrChars tokenBChars
      tokenBChars (some 5)).2 5 rfl (by decide) (by decide) (by decide) (by decide) rfl⟩

/-! ### Big-integer scratch pool (`BigIntPool`) and the pooled engine

`big.Int` objects are mutable; to state frame and aliasing properties the
pool is modelled with an explicit object heap.  `heap` maps object
identifiers to current values, `free` is the pool's free list, `next` is the
next never-used identifier (so an identifier `≥ next` denotes an object that
does not exist yet), and `acquired`/`released` are ghost logs of the
identifiers handed out by `Get` and returned by `Put`. -/
structure PoolState where
  heap : Nat → Int
  free : List Nat
  nextId : Nat
  acquired : List Nat
  released : List Nat

/-- Model of `BigIntPool.Get`: pop the free list, or have `sync.Pool` call `New`
(allocate a fresh zero-valued `big.Int`) when the pool is empty.  Never
fails. -/
def PoolState.get (s : PoolState) : Nat × PoolState :=
  match s.free with
  | [] =>
    (s.nextId,
      { s with
        heap := Function.update s.heap s.nextId 0,
        nextId := s.nextId + 1,
        acquired := s.acquired ++ [s.nextId] })
  | x :: rest => (x, { s with free := rest, acquired := s.acquired ++ [x] })

/-- Model of `BigIntPool.Put`: `x.SetInt64(0)` then return `x` to the pool. -/
def PoolState.put (s : PoolState) (x : Nat) : PoolState :=
  { s with
    heap := Function.update s.heap x 0,
    free := x :: s.free,
    released := s.released ++ [x] }

/-- An in-place `big.Int` method call storing value `v` into object `x`
(e.g. `x.Mul(a, b)`). -/
def PoolState.write (s : PoolState) (x : Nat) (v : Int) : PoolState :=
  { s with heap := Function.update s.heap x v }

/-- Model of `new(big.Int).Set(v)`: allocate a fresh object outside the pool. -/
def PoolState.alloc (s : PoolState) (v : Int) : Nat × PoolState :=
  (s.nextId,
    { s with
      heap := Function.update s.heap s.nextId v,
      nextId := s.nextId + 1 })

/-- Second half of `CalculateSwapAmount` (allocating variant): the writes after
the fee switch, the `new(big.Int).Set(result)` copy, and the three releases.
`Int.ediv` models `big.Int.Div` (Euclidean division). -/
def pooledTail (reserveIn reserveOut numerator denominator tmpCalc : Nat)
    (s4 : PoolState) : Nat × PoolState :=
  let s5 := s4.write tmpCalc (s4.heap reserveIn * 1000)
  let s6 := s5.write denominator (s5.heap tmpCalc + s5.heap numerator)
  let s7 := s6.write tmpCalc (s6.heap numerator * s6.heap reserveOut)
  let s8 := s7.write tmpCalc (Int.ediv (s7.heap tmpCalc) (s7.heap denominator))
  let amountOut := (s8.alloc (s8.heap tmpCalc)).1
  let s9 := (s8.alloc (s8.heap tmpCalc)).2
  let s10 := s9.put numerator
  let s11 := s10.put denominator
  let s12 := s11.put tmpCalc
  (amountOut, s12)

/-- The fee switch of the pooled engine: presets write
`amountIn * 997/995/990` into `numerator`; any other fee acquires a fourth
scratch, sets it to `1000 - fee`, multiplies, and releases it. -/
def feeStage (amountIn numerator : Nat) (feeBasisPoints : Int) (s3 : PoolState) : PoolState :=
  if feeBasisPoints = 3 then s3.write numerator (s3.heap amountIn * 997)
  else if feeBasisPoints = 5 then s3.write numerator (s3.heap amountIn * 995)
  else if feeBasisPoints = 10 then s3.write numerator (s3.heap amountIn * 990)
  else
    let feeMultiplier := (s3.get).1
    let sa := (s3.get).2
    let sb := sa.write feeMultiplier (1000 - feeBasisPoints)
    let sc := sb.write numerator (sb.heap amountIn * sb.heap feeMultiplier)
    sc.put feeMultiplier

/-- Model of `CalculateSwapAmount` (allocating variant) with its pool interactions made
explicit.  Arguments are object identifiers; the result is the identifier of
the returned `amountOut` together with the final pool state. -/
def CalculateSwapAmountPooled (amountIn reserveIn reserveOut : Nat) (feeBasisPoints : Int)
    (s0 : PoolState) : Nat × PoolState :=
  let numerator := (s0.get).1
  let s1 := (s0.get).2
  let denominator := (s1.get).1
  let s2 := (s1.get).2
  let tmpCalc := (s2.get).1
  let s3 := (s2.get).2
  pooledTail reserveIn reserveOut numerator denominator tmpCalc
    (feeStage amountIn numerator feeBasisPoints s3)

/-- C9: `Put` resets the stored object's value to zero before pushing it onto
the free list, and `Get` is total — on an empty pool it hands out a freshly
allocated identifier whose value is zero. -/
theorem bigIntPool_put_resets_get_total (s t : PoolState) (x : Nat)
    (ht : t.free = []) :
    (s.put x).heap x = 0 ∧
    (s.put x).free = x :: s.free ∧
    (t.get).1 = t.nextId ∧
    (t.get).2.heap (t.get).1 = 0 ∧
    (t.get).2.nextId = t.nextId + 1 := by
  refine ⟨?_, rfl, ?_, ?_, ?_⟩
  · simp [PoolState.put]
  · simp [PoolState.get, ht]
  · simp [PoolState.get, ht]
  · simp [PoolState.get, ht]

/-- A pool with one free object, used to witness C9. -/
def demoPoolA : PoolState :=
  { heap := (fun _ => 5), free := [7], nextId := 9, acquired := [], released := [] }

/-- An empty pool, used to witness C9. -/
def demoPoolEmpty : PoolState :=
  { heap := (fun _ => 0), free := [], nextId := 4, acquired := [], released := [] }

/-- Witness for C9 on concrete pools. -/
theorem bigIntPool_put_resets_get_total_witness :
    (demoPoolA.put 3).heap 3 = 0 ∧
    (demoPoolA.put 3).free = 3 :: demoPoolA.free ∧
    (demoPoolEmpty.get).1 = demoPoolEmpty.nextId ∧
    (demoPoolEmpty.get).2.heap (demoPoolEmpty.get).1 = 0 ∧
    (demoPoolEmpty.get).2.nextId = demoPoolEmpty.nextId + 1 :=
  bigIntPool_put_resets_get_total demoPoolA demoPoolEmpty 3 rfl

/-- Pool integrity: free-list identifiers denote existing objects and are
pairwise distinct (no aliasing between pooled objects). -/
def PoolState.Inv (s : PoolState) : Prop :=
  (∀ y ∈ s.free, y < s.nextId) ∧ s.free.Nodup

theorem PoolState.write_heap_ne (s : PoolState) (x : Nat) (v : Int) (y : Nat) (h : y ≠ x) :
    (s.write x v).heap y = s.heap y := by
  simp [PoolState.write, Function.update_apply, h]

theorem PoolState.write_free (s : PoolState) (x : Nat) (v : Int) :
    (s.write x v).free = s.free := rfl

theorem PoolState.write_nextId (s : PoolState) (x : Nat) (v : Int) :
    (s.write x v).nextId = s.nextId := rfl

theorem PoolState.write_acquired (s : PoolState) (x : Nat) (v : Int) :
    (s.write x v).acquired = s.acquired := rfl

theorem PoolState.write_released (s : PoolState) (x : Nat) (v : Int) :
    (s.write x v).released = s.released := rfl

theorem PoolState.put_heap_ne (s : PoolState) (x y : Nat) (h : y ≠ x) :
    (s.put x).heap y = s.heap y := by
  simp [PoolState.put, Function.update_apply, h]

theorem PoolState.put_free (s : PoolState) (x : Nat) : (s.put x).free = x :: s.free := rfl

theorem PoolState.put_nextId (s : PoolState) (x : Nat) : (s.put x).nextId = s.nextId := rfl

theorem PoolState.put_acquired (s : PoolState) (x : Nat) :
    (s.put x).acquired = s.acquired := rfl

theorem PoolState.put_released (s : PoolState) (x : Nat) :
    (s.put x).released = s.released ++ [x] := rfl

theorem PoolState.alloc_fst (s : PoolState) (v : Int) : (s.alloc v).1 = s.nextId := rfl

theorem PoolState.alloc_heap_ne (s : PoolState) (v : Int) (y : Nat) (h : y ≠ s.nextId) :
    (s.alloc v).2.heap y = s.heap y := by
  simp [PoolState.alloc, Function.update_apply, h]

theorem PoolState.alloc_free (s : PoolState) (v : Int) : (s.alloc v).2.free = s.free := rfl

theorem PoolState.alloc_nextId (s : PoolState) (v : Int) :
    (s.alloc v).2.nextId = s.nextId + 1 := rfl

theorem PoolState.alloc_acquired (s : PoolState) (v : Int) :
    (s.alloc v).2.acquired = s.acquired := rfl

theorem PoolState.alloc_released (s : PoolState) (v : Int) :
    (s.alloc v).2.released = s.released := rfl

theorem PoolState.get_inv (s : PoolState) (h : s.Inv) : (s.get).2.Inv := by
  rcases h with ⟨hlt, hnd⟩
  cases hfree : s.free with
  | nil =>
    refine ⟨?_, ?_⟩ <;> simp [PoolState.get, hfree]
  | cons a rest =>
    rw [hfree] at hlt hnd
    refine ⟨?_, ?_⟩ <;> simp only [PoolState.get, hfree]
    · intro y hy
      exact hlt y (List.mem_cons_of_mem a hy)
    · exact hnd.of_cons

theorem PoolState.get_fst_lt (s : PoolState) (h : s.Inv) :
    (s.get).1 < (s.get).2.nextId := by
  rcases h with ⟨hlt, _⟩
  cases hfree : s.free with
  | nil => simp [PoolState.get, hfree]
  | cons a rest =>
    rw [hfree] at hlt
    simpa [PoolState.get, hfree] using hlt a (List.mem_cons_self a rest)

theorem PoolState.get_fst_not_free (s : PoolState) (h : s.Inv) :
    (s.get).1 ∉ (s.get).2.free := by
  rcases h with ⟨_, hnd⟩
  cases hfree : s.free with
  | nil => simp [PoolState.get, hfree]
  | cons a rest =>
    rw [hfree] at hnd
    simpa [PoolState.get, hfree] using (List.nodup_cons.mp hnd).1

theorem PoolState.get_nextId_le (s : PoolState) : s.nextId ≤ (s.get).2.nextId := by
  cases hfree : s.free with
  | nil => simp [PoolState.get, hfree]
  | cons a rest => simp [PoolState.get, hfree]

theorem PoolState.get_heap_lt (s : PoolState) (y : Nat) (hy : y < s.nextId) :
    (s.get).2.heap y = s.heap y := by
  cases hfree : s.free with
  | nil =>
    have : y ≠ s.nextId := Nat.ne_of_lt hy
    simp [PoolState.get, hfree, Function.update_apply, this]
  | cons a rest => simp [PoolState.get, hfree]

theorem PoolState.get_owned (s : PoolState) (y : Nat) (hy : y < s.nextId)
    (hf : y ∉ s.free) : y ∉ (s.get).2.free ∧ y ≠ (s.get).1 := by
  cases hfree : s.free with
  | nil =>
    refine ⟨by simp [PoolState.get, hfree], ?_⟩
    simp only [PoolState.get, hfree]
    exact Nat.ne_of_lt hy
  | cons a rest =>
    rw [hfree] at hf
    refine ⟨?_, ?_⟩ <;> simp only [PoolState.get, hfree]
    · intro hy'
      exact hf (List.mem_cons_of_mem a hy')
    · intro he
      exact hf (he ▸ List.mem_cons_self a rest)

theorem PoolState.get_acquired (s : PoolState) :
    (s.get).2.acquired = s.acquired ++ [(s.get).1] := by
  cases hfree : s.free with
  | nil => simp [PoolState.get, hfree]
  | cons a rest => simp [PoolState.get, hfree]

theorem PoolState.get_released (s : PoolState) : (s.get).2.released = s.released := by
  cases hfree : s.free with
  | nil => simp [PoolState.get, hfree]
  | cons a rest => simp [PoolState.get, hfree]

theorem PoolState.get_free_lt (s : PoolState) (h : s.Inv) (y : Nat)
    (hy : y ∈ (s.get).2.free) : y < (s.get).2.nextId :=
  (PoolState.get_inv s h).1 y hy

/-- Frame facts for the tail of the pooled engine: objects other than the
three scratch identifiers keep their values, the three scratches are all
released, the returned object is the freshly allocated `s4.nextId`, and it is
neither on the final free list nor equal to any pre-existing identifier. -/
theorem pooledTail_frame (reserveIn reserveOut n d t : Nat) (s4 : PoolState)
    (hInv4 : s4.Inv) (hnLt : n < s4.nextId) (hdLt : d < s4.nextId) (htLt : t < s4.nextId) :
    (∀ y, y ≠ n → y ≠ d → y ≠ t → y < s4.nextId →
      (pooledTail reserveIn reserveOut n d t s4).2.heap y = s4.heap y) ∧
    (pooledTail reserveIn reserveOut n d t s4).2.free = t :: d :: n :: s4.free ∧
    (pooledTail reserveIn reserveOut n d t s4).2.acquired = s4.acquired ∧
    (pooledTail reserveIn reserveOut n d t s4).2.released = s4.released ++ [n, d, t] ∧
    (pooledTail reserveIn reserveOut n d t s4).1 = s4.nextId ∧
    (pooledTail reserveIn reserveOut n d t s4).2.nextId = s4.nextId + 1 ∧
    (pooledTail reserveIn reserveOut n d t s4).1 ∉
      (pooledTail reserveIn reserveOut n d t s4).2.free ∧
    ((pooledTail reserveIn reserveOut n d t s4).2.get).1 = t := by
  refine ⟨?_, rfl, rfl, ?_, rfl, rfl, ?_, rfl⟩
  · intro y hyn hyd hyt hylt
    have hyalloc : y ≠ s4.nextId := Nat.ne_of_lt hylt
    simp only [pooledTail, PoolState.put_heap_ne, PoolState.alloc_heap_ne,
      PoolState.write_heap_ne, PoolState.write_nextId, hyt, hyd, hyn, hyalloc,
      ne_eq, not_false_eq_true]
  · show ((s4.released ++ [n]) ++ [d]) ++ [t] = s4.released ++ [n, d, t]
    simp
  · show s4.nextId ∉ t :: d :: n :: s4.free
    intro hmem
    simp only [List.mem_cons] at hmem
    rcases hmem with h | h | h | h
    · omega
    · omega
    · omega
    · exact absurd (hInv4.1 _ h) (by omega)

/-- Frame facts for the fee switch: the pool invariant is preserved, existing
objects keep their identifiers valid, the value of every owned object other
than `numerator` is untouched, and the ghost logs both grow by the same list
`L` (empty for the presets, the fourth scratch for the computed-multiplier
path). -/
theorem feeStage_frame (amountIn numerator : Nat) (feeBasisPoints : Int) (s3 : PoolState)
    (hInv3 : s3.Inv) :
    ∃ L : List Nat,
      (feeStage amountIn numerator feeBasisPoints s3).Inv ∧
      s3.nextId ≤ (feeStage amountIn numerator feeBasisPoints s3).nextId ∧
      (∀ y, y < s3.nextId → y ∉ s3.free → y ≠ numerator →
        (feeStage amountIn numerator feeBasisPoints s3).heap y = s3.heap y) ∧
      (feeStage amountIn numerator feeBasisPoints s3).acquired = s3.acquired ++ L ∧
      (feeStage amountIn numerator feeBasisPoints s3).released = s3.released ++ L ∧
      (∀ y ∈ L, y < (feeStage amountIn numerator feeBasisPoints s3).nextId) := by
  by_cases h3 : feeBasisPoints = 3
  · subst h3
    refine ⟨[], hInv3, le_refl _, ?_, by simp [feeStage, PoolState.write_acquired], by simp [feeStage, PoolState.write_released], by simp⟩
    intro y _ _ hyn
    exact PoolState.write_heap_ne _ _ _ _ hyn
  by_cases h5 : feeBasisPoints = 5
  · subst h5
    refine ⟨[], hInv3, le_refl _, ?_, by simp [feeStage, PoolState.write_acquired], by simp [feeStage, PoolState.write_released], by simp⟩
    intro y _ _ hyn
    exact PoolState.write_heap_ne _ _ _ _ hyn
  by_cases h10 : feeBasisPoints = 10
  · subst h10
    refine ⟨[], hInv3, le_refl _, ?_, by simp [feeStage, PoolState.write_acquired], by simp [feeStage, PoolState.write_released], by simp⟩
    intro y _ _ hyn
    exact PoolState.write_heap_ne _ _ _ _ hyn
  · have hInvA : ((s3.get).2).Inv := PoolState.get_inv s3 hInv3
    have hfLt : (s3.get).1 < (s3.get).2.nextId := PoolState.get_fst_lt s3 hInv3
    have hfNF : (s3.get).1 ∉ (s3.get).2.free := PoolState.get_fst_not_free s3 hInv3
    have hstage : feeStage amountIn numerator feeBasisPoints s3 =
        ((((s3.get).2.write (s3.get).1 (1000 - feeBasisPoints)).write numerator
          (((s3.get).2.write (s3.get).1 (1000 - feeBasisPoints)).heap amountIn *
            ((s3.get).2.write (s3.get).1 (1000 - feeBasisPoints)).heap (s3.get).1)).put
          (s3.get).1) := by
      simp only [feeStage, if_neg h3, if_neg h5, if_neg h10]
    refine ⟨[(s3.get).1], ?_, ?_, ?_, ?_, ?_, ?_⟩
    · rw [hstage]
      constructor
      · intro y hy
        rcases List.mem_cons.mp hy with h | h
        · subst h
          exact hfLt
        · exact hInvA.1 y h
      · exact List.nodup_cons.mpr ⟨hfNF, hInvA.2⟩
    · rw [hstage]
      exact PoolState.get_nextId_le s3
    · intro y hy hynf hyn
      have hyf := PoolState.get_owned s3 y hy hynf
      rw [hstage, PoolState.put_heap_ne _ _ _ hyf.2,
        PoolState.write_heap_ne _ _ _ _ hyn, PoolState.write_heap_ne _ _ _ _ hyf.2,
        PoolState.get_heap_lt s3 y hy]
    · rw [hstage]
      show (s3.get).2.acquired = s3.acquired ++ [(s3.get).1]
      exact PoolState.get_acquired s3
    · rw [hstage]
      show (s3.get).2.released ++ [(s3.get).1] = s3.released ++ [(s3.get).1]
      rw [PoolState.get_released s3]
    · intro y hy
      rw [List.mem_singleton] at hy
      subst hy
      rw [hstage]
      exact hfLt

/-- C10: on every input satisfying the preconditions (argument objects exist
and are not on the free list, the free list is well formed, ghost logs start
empty), `CalculateSwapAmount` leaves the values of `amountIn`, `reserveIn` and
`reserveOut` unchanged; the scratch integers it acquires are exactly the ones
it releases back (as a multiset) on its single path; and the returned
`amountOut` is a freshly allocated object distinct from the arguments and from
every released scratch — it is not on the final free list, so a subsequent
pool acquire can never hand it out and later pool operations cannot change the
returned result. -/
theorem calculateSwapAmountPooled_frame
    (amountIn reserveIn reserveOut : Nat) (feeBasisPoints : Int) (s0 : PoolState)
    (hWF : ∀ y ∈ s0.free, y < s0.nextId) (hND : s0.free.Nodup)
    (haLt : amountIn < s0.nextId) (haNF : amountIn ∉ s0.free)
    (hbLt : reserveIn < s0.nextId) (hbNF : reserveIn ∉ s0.free)
    (hcLt : reserveOut < s0.nextId) (hcNF : reserveOut ∉ s0.free)
    (hA0 : s0.acquired = []) (hR0 : s0.released = []) :
    (CalculateSwapAmountPooled amountIn reserveIn reserveOut feeBasisPoints s0).2.heap amountIn
        = s0.heap amountIn ∧
    (CalculateSwapAmountPooled amountIn reserveIn reserveOut feeBasisPoints s0).2.heap reserveIn
        = s0.heap reserveIn ∧
    (CalculateSwapAmountPooled amountIn reserveIn reserveOut feeBasisPoints s0).2.heap reserveOut
        = s0.heap reserveOut ∧
    ((CalculateSwapAmountPooled amountIn reserveIn reserveOut feeBasisPoints s0).2.released).Perm
      ((CalculateSwapAmountPooled amountIn reserveIn reserveOut feeBasisPoints s0).2.acquired) ∧
    s0.nextId ≤ (CalculateSwapAmountPooled amountIn reserveIn reserveOut feeBasisPoints s0).1 ∧
    (CalculateSwapAmountPooled amountIn reserveIn reserveOut feeBasisPoints s0).1 <
      (CalculateSwapAmountPooled amountIn reserveIn reserveOut feeBasisPoints s0).2.nextId ∧
    (CalculateSwapAmountPooled amountIn reserveIn reserveOut feeBasisPoints s0).1 ∉
      (CalculateSwapAmountPooled amountIn reserveIn reserveOut feeBasisPoints s0).2.free ∧
    (CalculateSwapAmountPooled amountIn reserveIn reserveOut feeBasisPoints s0).1 ∉
      (CalculateSwapAmountPooled amountIn reserveIn reserveOut feeBasisPoints s0).2.acquired ∧
    (CalculateSwapAmountPooled amountIn reserveIn reserveOut feeBasisPoints s0).1 ≠ amountIn ∧
    (CalculateSwapAmountPooled amountIn reserveIn reserveOut feeBasisPoints s0).1 ≠ reserveIn ∧
    (CalculateSwapAmountPooled amountIn reserveIn reserveOut feeBasisPoints s0).1 ≠ reserveOut ∧
    (((CalculateSwapAmountPooled amountIn reserveIn reserveOut feeBasisPoints s0).2.get).1 ≠
      (CalculateSwapAmountPooled amountIn reserveIn reserveOut feeBasisPoints s0).1) := by
  have hInv0 : s0.Inv := ⟨hWF, hND⟩
  set n := (s0.get).1 with hn
  set s1 := (s0.get).2 with hs1
  set d := (s1.get).1 with hd
  set s2 := (s1.get).2 with hs2
  set t := (s2.get).1 with ht
  set s3 := (s2.get).2 with hs3
  have hInv1 : s1.Inv := PoolState.get_inv s0 hInv0
  have hInv2 : s2.Inv := PoolState.get_inv s1 hInv1
  have hInv3 : s3.Inv := PoolState.get_inv s2 hInv2
  have hle1 : s0.nextId ≤ s1.nextId := PoolState.get_nextId_le s0
  have hle2 : s1.nextId ≤ s2.nextId := PoolState.get_nextId_le s1
  have hle3 : s2.nextId ≤ s3.nextId := PoolState.get_nextId_le s2
  have hn1 : n < s1.nextId := PoolState.get_fst_lt s0 hInv0
  have hn1f : n ∉ s1.free := PoolState.get_fst_not_free s0 hInv0
  have hd2 : d < s2.nextId := PoolState.get_fst_lt s1 hInv1
  have hd2f : d ∉ s2.free := PoolState.get_fst_not_free s1 hInv1
  have ht3 : t < s3.nextId := PoolState.get_fst_lt s2 hInv2
  have ht3f : t ∉ s3.free := PoolState.get_fst_not_free s2 hInv2
  have hA1 := PoolState.get_owned s0 amountIn haLt haNF
  have hB1 := PoolState.get_owned s0 reserveIn hbLt hbNF
  have hC1 := PoolState.get_owned s0 reserveOut hcLt hcNF
  have haLt1 : amountIn < s1.nextId := lt_of_lt_of_le haLt hle1
  have hbLt1 : reserveIn < s1.nextId := lt_of_lt_of_le hbLt hle1
  have hcLt1 : reserveOut < s1.nextId := lt_of_lt_of_le hcLt hle1
  have hA2 := PoolState.get_owned s1 amountIn haLt1 hA1.1
  have hB2 := PoolState.get_owned s1 reserveIn hbLt1 hB1.1
  have hC2 := PoolState.get_owned s1 reserveOut hcLt1 hC1.1
  have hn2 := PoolState.get_owned s1 n hn1 hn1f
  have haLt2 : amountIn < s2.nextId := lt_of_lt_of_le haLt1 hle2
  have hbLt2 : reserveIn < s2.nextId := lt_of_lt_of_le hbLt1 hle2
  have hcLt2 : reserveOut < s2.nextId := lt_of_lt_of_le hcLt1 hle2
  have hnLt2 : n < s2.nextId := lt_of_lt_of_le hn1 hle2
  have hA3 := PoolState.get_owned s2 amountIn haLt2 hA2.1
  have hB3 := PoolState.get_owned s2 reserveIn hbLt2 hB2.1
  have hC3 := PoolState.get_owned s2 reserveOut hcLt2 hC2.1
  have hn3 := PoolState.get_owned s2 n hnLt2 hn2.1
  have hd3 := PoolState.get_owned s2 d hd2 hd2f
  have haLt3 : amountIn < s3.nextId := lt_of_lt_of_le haLt2 hle3
  have hbLt3 : reserveIn < s3.nextId := lt_of_lt_of_le hbLt2 hle3
  have hcLt3 : reserveOut < s3.nextId := lt_of_lt_of_le hcLt2 hle3
  have hnLt3 : n < s3.nextId := lt_of_lt_of_le hnLt2 hle3
  have hdLt3 : d < s3.nextId := lt_of_lt_of_le hd2 hle3
  have hh1 : s1.heap amountIn = s0.heap amountIn := PoolState.get_heap_lt s0 amountIn haLt
  have hh2 : s2.heap amountIn = s1.heap amountIn := PoolState.get_heap_lt s1 amountIn haLt1
  have hh3 : s3.heap amountIn = s2.heap amountIn := PoolState.get_heap_lt s2 amountIn haLt2
  have hg1 : s1.heap reserveIn = s0.heap reserveIn := PoolState.get_heap_lt s0 reserveIn hbLt
  have hg2 : s2.heap reserveIn = s1.heap reserveIn := PoolState.get_heap_lt s1 reserveIn hbLt1
  have hg3 : s3.heap reserveIn = s2.heap reserveIn := PoolState.get_heap_lt s2 reserveIn hbLt2
  have hk1 : s1.heap reserveOut = s0.heap reserveOut := PoolState.get_heap_lt s0 reserveOut hcLt
  have hk2 : s2.heap reserveOut = s1.heap reserveOut :=
    PoolState.get_heap_lt s1 reserveOut hcLt1
  have hk3 : s3.heap reserveOut = s2.heap reserveOut :=
    PoolState.get_heap_lt s2 reserveOut hcLt2
  have hacq3 : s3.acquired = [n, d, t] := by
    have e1 : s1.acquired = s0.acquired ++ [n] := PoolState.get_acquired s0
    have e2 : s2.acquired = s1.acquired ++ [d] := PoolState.get_acquired s1
    have e3 : s3.acquired = s2.acquired ++ [t] := PoolState.get_acquired s2
    rw [e3, e2, e1, hA0]
    rfl
  have hrel3 : s3.released = [] := by
    have e1 : s1.released = s0.released := PoolState.get_released s0
    have e2 : s2.released = s1.released := PoolState.get_released s1
    have e3 : s3.released = s2.released := PoolState.get_released s2
    rw [e3, e2, e1, hR0]
  have hcall : CalculateSwapAmountPooled amountIn reserveIn reserveOut feeBasisPoints s0 =
      pooledTail reserveIn reserveOut n d t (feeStage amountIn n feeBasisPoints s3) := rfl
  obtain ⟨L, hInv4, hle4, hheap4, hacq4, hrel4, hLb⟩ :=
    feeStage_frame amountIn n feeBasisPoints s3 hInv3
  obtain ⟨Hheap, Hfree, Hacq, Hrel, Hout, Hnext, Hnofree, Hget⟩ :=
    pooledTail_frame reserveIn reserveOut n d t (feeStage amountIn n feeBasisPoints s3)
      hInv4 (lt_of_lt_of_le hnLt3 hle4) (lt_of_lt_of_le hdLt3 hle4) (lt_of_lt_of_le ht3 hle4)
  have hs04 : s0.nextId ≤ s3.nextId := le_trans hle1 (le_trans hle2 hle3)
  rw [hcall]
  refine ⟨?_, ?_, ?_, ?_, ?_, ?_, Hnofree, ?_, ?_, ?_, ?_, ?_⟩
  · rw [Hheap amountIn hA1.2 hA2.2 hA3.2 (lt_of_lt_of_le haLt3 hle4),
      hheap4 amountIn haLt3 hA3.1 hA1.2, hh3, hh2, hh1]
  · rw [Hheap reserveIn hB1.2 hB2.2 hB3.2 (lt_of_lt_of_le hbLt3 hle4),
      hheap4 reserveIn hbLt3 hB3.1 hB1.2, hg3, hg2, hg1]
  · rw [Hheap reserveOut hC1.2 hC2.2 hC3.2 (lt_of_lt_of_le hcLt3 hle4),
      hheap4 reserveOut hcLt3 hC3.1 hC1.2, hk3, hk2, hk1]
  · rw [Hrel, Hacq, hrel4, hacq4, hrel3, hacq3]
    simp only [List.nil_append]
    exact List.perm_append_comm
  · rw [Hout]
    exact le_trans hs04 hle4
  · rw [Hout, Hnext]
    omega
  · rw [Hout, Hacq, hacq4, hacq3]
    intro hmem
    rcases List.mem_append.mp hmem with h | h
    · simp only [List.mem_cons, List.not_mem_nil, or_false] at h
      rcases h with h | h | h <;> omega
    · exact absurd (hLb _ h) (by omega)
  · rw [Hout]
    omega
  · rw [Hout]
    omega
  · rw [Hout]
    omega
  · rw [Hget, Hout]
    omega

/-- A pool with two pooled scratch objects and three live argument objects,
used to witness C10 (fee 7 exercises the computed-multiplier path). -/
def demoPoolC10 : PoolState :=
  { heap := (fun y => Int.ofNat y), free := [3, 4], nextId := 5,
    acquired := [], released := [] }

/-- Witness for C10 at a concrete pool and concrete argument identifiers. -/
theorem calculateSwapAmountPooled_frame_witness :
    (CalculateSwapAmountPooled 0 1 2 7 demoPoolC10).2.heap 0 = demoPoolC10.heap 0 ∧
    (CalculateSwapAmountPooled 0 1 2 7 demoPoolC10).2.heap 1 = demoPoolC10.heap 1 ∧
    (CalculateSwapAmountPooled 0 1 2 7 demoPoolC10).2.heap 2 = demoPoolC10.heap 2 ∧
    ((CalculateSwapAmountPooled 0 1 2 7 demoPoolC10).2.released).Perm
      ((CalculateSwapAmountPooled 0 1 2 7 demoPoolC10).2.acquired) ∧
    demoPoolC10.nextId ≤ (CalculateSwapAmountPooled 0 1 2 7 demoPoolC10).1 ∧
    (CalculateSwapAmountPooled 0 1 2 7 demoPoolC10).1 <
      (CalculateSwapAmountPooled 0 1 2 7 demoPoolC10).2.nextId ∧
    (CalculateSwapAmountPooled 0 1 2 7 demoPoolC10).1 ∉
      (CalculateSwapAmountPooled 0 1 2 7 demoPoolC10).2.free ∧
    (CalculateSwapAmountPooled 0 1 2 7 demoPoolC10).1 ∉
      (CalculateSwapAmountPooled 0 1 2 7 demoPoolC10).2.acquired ∧
    (CalculateSwapAmountPooled 0 1 2 7 demoPoolC10).1 ≠ 0 ∧
    (CalculateSwapAmountPooled 0 1 2 7 demoPoolC10).1 ≠ 1 ∧
    (CalculateSwapAmountPooled 0 1 2 7 demoPoolC10).1 ≠ 2 ∧
    (((CalculateSwapAmountPooled 0 1 2 7 demoPoolC10).2.get).1 ≠
      (CalculateSwapAmountPooled 0 1 2 7 demoPoolC10).1) :=
  calculateSwapAmountPooled_frame 0 1 2 7 demoPoolC10
    (by decide) (by decide) (by decide) (by decide) (by decide) (by decide)
    (by decide) (by decide) rfl rfl
